import Mathlib

/-!
Verification of the EmailListVerify Python SDK against its specification.

The repository contains three near-duplicate client implementations:
  * `src/src/emaillistverify/client.py` (httpx-based, here called "httpx client"),
  * `src/emaillistverify.py`            (requests-based, here called "legacy client"),
  * `src/emaillistverify/__init__.py`   (requests-based, single-email only).

The definitions below are shallow embeddings of the relevant Python
functions.  Network interaction is made explicit: a function that issues
requests takes the remote responses as a parameter (a trace) and returns,
alongside its result, a count or log of the requests it issued.  Machine
integers are modelled by `Int`/`Nat` (Python ints are unbounded), wall-clock
time in `wait_for_bulk_completion` by the deterministic abstraction
"elapsed after k sleeps of `check_interval` seconds = k * check_interval"
(status calls themselves are instantaneous).
-/

/-! ## Bulk status records and the polling loop

Embedding of `EmailListVerifyClient.wait_for_bulk_completion`
(`src/src/emaillistverify/client.py` lines 281-293; the legacy client's copy at
`src/emaillistverify.py` lines 261-273 is textually identical):

    start_time = time.time()
    while time.time() - start_time < max_wait:
        status = self.get_bulk_status(file_id)
        if status.get('status') == 'completed':
            return status
        elif status.get('status') == 'failed':
            raise EmailListVerifyError(f"Bulk verification failed: {status.get('error', 'Unknown error')}")
        time.sleep(check_interval)
    raise EmailListVerifyError(f"Timeout waiting for bulk verification (waited {max_wait}s)")
-/

/-- The parsed status payload: `status.get('status')` and `status.get('error')`
(a Python `dict.get` returns `None` when the key is absent). -/
structure StatusRecord where
  status : Option String
  error : Option String
deriving DecidableEq

/-- Outcome of `wait_for_bulk_completion`: normal return of the observed
record, or one of the two raised `EmailListVerifyError`s, identified by
their message. -/
inductive WaitResult where
  | success (r : StatusRecord)
  | remoteFailure (msg : String)
  | timeout (msg : String)
deriving DecidableEq

/-- Message of the timeout error:
`f"Timeout waiting for bulk verification (waited {max_wait}s)"`. -/
def timeoutMsg (maxWait : Int) : String :=
  "Timeout waiting for bulk verification (waited " ++ toString maxWait ++ "s)"

/-- Message of the remote-failure error:
`f"Bulk verification failed: {status.get('error', 'Unknown error')}"`. -/
def failureMsg (r : StatusRecord) : String :=
  "Bulk verification failed: " ++ r.error.getD "Unknown error"

/-- A status record that the loop treats as non-terminal: neither
`'completed'` nor `'failed'`. -/
def nonTerminal (r : StatusRecord) : Prop :=
  r.status ≠ some "completed" ∧ r.status ≠ some "failed"

instance (r : StatusRecord) : Decidable (nonTerminal r) := by
  unfold nonTerminal; infer_instance

/-- One execution of the polling loop body, by recursion on fuel.  `trace i`
is the record returned by the `i`-th `get_bulk_status` call; `k` is the
number of sleeps performed so far, so elapsed wall-clock time at the loop
check is `k * interval`.  Returns (result, number of status calls made,
number of sleeps performed).  The fuel-0 answer coincides with the loop
check failing, and `wait_for_bulk_completion` below supplies enough fuel
that fuel 0 is only reached with the check already false. -/
def waitGo (interval maxWait : Int) (trace : Nat → StatusRecord) :
    Nat → Nat → WaitResult × Nat × Nat
  | 0, _ => (WaitResult.timeout (timeoutMsg maxWait), 0, 0)
  | fuel+1, k =>
    if (k : Int) * interval < maxWait then
      if (trace k).status = some "completed" then
        (WaitResult.success (trace k), 1, 0)
      else if (trace k).status = some "failed" then
        (WaitResult.remoteFailure (failureMsg (trace k)), 1, 0)
      else
        let rest := waitGo interval maxWait trace fuel (k+1)
        (rest.1, rest.2.1 + 1, rest.2.2 + 1)
    else (WaitResult.timeout (timeoutMsg maxWait), 0, 0)

/-- `wait_for_bulk_completion(file_id, check_interval, max_wait)`, given the
trace of records the successive `get_bulk_status` polls would return.
Components: result, status-call count, sleep count. -/
def wait_for_bulk_completion (trace : Nat → StatusRecord) (interval maxWait : Int) :
    WaitResult × Nat × Nat :=
  waitGo interval maxWait trace (maxWait.toNat + 1) 0

/-- Poll `i` is made by the loop iff elapsed time `i * interval` is still
strictly below `max_wait` and every earlier poll observed a non-terminal
status (otherwise the loop already exited). -/
def pollMade (trace : Nat → StatusRecord) (interval maxWait : Int) (i : Nat) : Prop :=
  (i : Int) * interval < maxWait ∧ ∀ j, j < i → nonTerminal (trace j)

instance (trace : Nat → StatusRecord) (interval maxWait : Int) (i : Nat) :
    Decidable (pollMade trace interval maxWait i) := by
  unfold pollMade; infer_instance

/-- The full input/output characterization of the polling loop used by
claim C1: how each of the three outcomes is determined by the trace. -/
def waitCharTriple (trace : Nat → StatusRecord) (interval maxWait : Int)
    (w : WaitResult) : Prop :=
  (∀ r, w = WaitResult.success r ↔
      ∃ i, pollMade trace interval maxWait i ∧
        (trace i).status = some "completed" ∧ r = trace i)
  ∧ (w = WaitResult.timeout (timeoutMsg maxWait) ↔
      ∀ i, pollMade trace interval maxWait i → nonTerminal (trace i))
  ∧ (∀ m, w = WaitResult.remoteFailure m ↔
      ∃ i, pollMade trace interval maxWait i ∧
        (trace i).status = some "failed" ∧ m = failureMsg (trace i))

theorem pollMade_lt_of_le (trace : Nat → StatusRecord) (interval maxWait : Int)
    (hi : 0 < interval) (k i : Nat) (hk : maxWait ≤ (k : Int) * interval)
    (h : pollMade trace interval maxWait i) : i < k := by
  by_contra hik
  push_neg at hik
  have hki : (k : Int) ≤ (i : Int) := by exact_mod_cast hik
  have hmul : (k : Int) * interval ≤ (i : Int) * interval :=
    mul_le_mul_of_nonneg_right hki (le_of_lt hi)
  have hlt := h.1
  linarith

theorem waitCharTriple_of_timeout (trace : Nat → StatusRecord) (interval maxWait : Int)
    (hall : ∀ i, pollMade trace interval maxWait i → nonTerminal (trace i)) :
    waitCharTriple trace interval maxWait (WaitResult.timeout (timeoutMsg maxWait)) := by
  refine ⟨?_, iff_of_true rfl hall, ?_⟩
  · intro r
    constructor
    · intro h; exact absurd h (by simp)
    · rintro ⟨i, hm, hci, -⟩
      exact absurd hci (hall i hm).1
  · intro m
    constructor
    · intro h; exact absurd h (by simp)
    · rintro ⟨i, hm, hfi, -⟩
      exact absurd hfi (hall i hm).2

theorem waitGo_char (trace : Nat → StatusRecord) (interval maxWait : Int) (hi : 0 < interval) :
    ∀ (fuel k : Nat), (∀ j, j < k → nonTerminal (trace j)) →
      maxWait ≤ ((k : Int) + (fuel : Int)) * interval →
      waitCharTriple trace interval maxWait (waitGo interval maxWait trace fuel k).1 := by
  intro fuel
  induction fuel with
  | zero =>
      intro k hpre hadq
      have hk : maxWait ≤ (k : Int) * interval := by simpa using hadq
      have hall : ∀ i, pollMade trace interval maxWait i → nonTerminal (trace i) :=
        fun i hm => hpre i (pollMade_lt_of_le trace interval maxWait hi k i hk hm)
      exact waitCharTriple_of_timeout trace interval maxWait hall
  | succ n ih =>
      intro k hpre hadq
      by_cases hk : (k : Int) * interval < maxWait
      · by_cases hc : (trace k).status = some "completed"
        · have hres : (waitGo interval maxWait trace (n+1) k).1
              = WaitResult.success (trace k) := by
            simp [waitGo, hk, hc]
          rw [hres]
          have hmk : pollMade trace interval maxWait k := ⟨hk, hpre⟩
          refine ⟨?_, ?_, ?_⟩
          · intro r
            constructor
            · intro h
              injection h with h'
              exact ⟨k, hmk, hc, h'.symm⟩
            · rintro ⟨i, hmi, hci, hri⟩
              rcases Nat.lt_trichotomy i k with hik | hik | hik
              · exact absurd hci (hpre i hik).1
              · subst hik; rw [hri]
              · exact absurd hc (hmi.2 k hik).1
          · constructor
            · intro h; exact absurd h (by simp)
            · intro hall; exact absurd hc (hall k hmk).1
          · intro m
            constructor
            · intro h; exact absurd h (by simp)
            · rintro ⟨i, hmi, hfi, -⟩
              rcases Nat.lt_trichotomy i k with hik | hik | hik
              · exact absurd hfi (hpre i hik).2
              · subst hik; rw [hc] at hfi; exact absurd hfi (by decide)
              · exact absurd hc (hmi.2 k hik).1
        · by_cases hf : (trace k).status = some "failed"
          · have hres : (waitGo interval maxWait trace (n+1) k).1
                = WaitResult.remoteFailure (failureMsg (trace k)) := by
              simp [waitGo, hk, hc, hf]
            rw [hres]
            have hmk : pollMade trace interval maxWait k := ⟨hk, hpre⟩
            refine ⟨?_, ?_, ?_⟩
            · intro r
              constructor
              · intro h; exact absurd h (by simp)
              · rintro ⟨i, hmi, hci, -⟩
                rcases Nat.lt_trichotomy i k with hik | hik | hik
                · exact absurd hci (hpre i hik).1
                · subst hik; rw [hf] at hci; exact absurd hci (by decide)
                · exact absurd hf (hmi.2 k hik).2
            · constructor
              · intro h; exact absurd h (by simp)
              · intro hall; exact absurd hf (hall k hmk).2
            · intro m
              constructor
              · intro h
                injection h with h'
                exact ⟨k, hmk, hf, h'.symm⟩
              · rintro ⟨i, hmi, hfi, hmi'⟩
                rcases Nat.lt_trichotomy i k with hik | hik | hik
                · exact absurd hfi (hpre i hik).2
                · subst hik; rw [hmi']
                · exact absurd hf (hmi.2 k hik).2
          · have hnt : nonTerminal (trace k) := ⟨hc, hf⟩
            have hres : (waitGo interval maxWait trace (n+1) k).1
                = (waitGo interval maxWait trace n (k+1)).1 := by
              simp [waitGo, hk, hc, hf]
            rw [hres]
            apply ih
            · intro j hj
              rcases Nat.lt_succ_iff_lt_or_eq.mp hj with h' | h'
              · exact hpre j h'
              · subst h'; exact hnt
            · push_cast at hadq ⊢
              have heq : ((k : Int) + 1 + (n : Int)) * interval
                  = ((k : Int) + ((n : Int) + 1)) * interval := by ring
              rw [heq]; exact hadq
      · have hk' : maxWait ≤ (k : Int) * interval := le_of_not_lt hk
        have hall : ∀ i, pollMade trace interval maxWait i → nonTerminal (trace i) :=
          fun i hm => hpre i (pollMade_lt_of_le trace interval maxWait hi k i hk' hm)
        have hres : (waitGo interval maxWait trace (n+1) k).1
            = WaitResult.timeout (timeoutMsg maxWait) := by
          simp [waitGo, hk]
        rw [hres]
        exact waitCharTriple_of_timeout trace interval maxWait hall

theorem waitGo_out (trace : Nat → StatusRecord) (interval maxWait : Int) (k : Nat)
    (hk : ¬ (k : Int) * interval < maxWait) :
    ∀ fuel, waitGo interval maxWait trace fuel k
      = (WaitResult.timeout (timeoutMsg maxWait), 0, 0) := by
  intro fuel
  cases fuel with
  | zero => rfl
  | succ n => simp [waitGo, hk]

theorem waitGo_timeout_msg (trace : Nat → StatusRecord) (interval maxWait : Int) :
    ∀ (fuel k : Nat) (m : String),
      (waitGo interval maxWait trace fuel k).1 = WaitResult.timeout m →
      m = timeoutMsg maxWait := by
  intro fuel
  induction fuel with
  | zero =>
      intro k m h
      simp [waitGo] at h
      exact h.symm
  | succ n ih =>
      intro k m h
      by_cases hk : (k : Int) * interval < maxWait
      · by_cases hc : (trace k).status = some "completed"
        · simp [waitGo, hk, hc] at h
        · by_cases hf : (trace k).status = some "failed"
          · simp [waitGo, hk, hc, hf] at h
          · simp only [waitGo, if_pos hk, if_neg hc, if_neg hf] at h
            exact ih (k+1) m h
      · simp [waitGo, hk] at h
        exact h.symm

theorem waitGo_polls_in_bound (trace : Nat → StatusRecord) (interval maxWait : Int) :
    ∀ (fuel k i : Nat), k ≤ i → i < k + (waitGo interval maxWait trace fuel k).2.1 →
      (i : Int) * interval < maxWait := by
  intro fuel
  induction fuel with
  | zero =>
      intro k i hki hlt
      simp [waitGo] at hlt
      omega
  | succ n ih =>
      intro k i hki hlt
      by_cases hk : (k : Int) * interval < maxWait
      · by_cases hc : (trace k).status = some "completed"
        · simp [waitGo, hk, hc] at hlt
          have : i = k := by omega
          subst this; exact hk
        · by_cases hf : (trace k).status = some "failed"
          · simp [waitGo, hk, hc, hf] at hlt
            have : i = k := by omega
            subst this; exact hk
          · simp only [waitGo, if_pos hk, if_neg hc, if_neg hf] at hlt
            rcases Nat.eq_or_lt_of_le hki with h' | h'
            · subst h'; exact hk
            · exact ih (k+1) i h' (by omega)
      · rw [waitGo_out trace interval maxWait k hk] at hlt
        simp at hlt
        omega

theorem waitGo_sleeps (trace : Nat → StatusRecord) (interval maxWait : Int) :
    ∀ (fuel k : Nat),
      (waitGo interval maxWait trace fuel k).2.2
        = List.countP (fun i => decide (nonTerminal (trace i)))
            (List.range' k (waitGo interval maxWait trace fuel k).2.1) := by
  intro fuel
  induction fuel with
  | zero =>
      intro k
      simp [waitGo]
  | succ n ih =>
      intro k
      by_cases hk : (k : Int) * interval < maxWait
      · by_cases hc : (trace k).status = some "completed"
        · have hnt : ¬ nonTerminal (trace k) := fun hn => hn.1 hc
          simp [waitGo, hk, hc, List.range'_one, List.countP_cons, hnt]
        · by_cases hf : (trace k).status = some "failed"
          · have hnt : ¬ nonTerminal (trace k) := fun hn => hn.2 hf
            simp [waitGo, hk, hc, hf, List.range'_one, List.countP_cons, hnt]
          · have hnt : nonTerminal (trace k) := ⟨hc, hf⟩
            simp only [waitGo, if_pos hk, if_neg hc, if_neg hf]
            rw [List.range'_succ, List.countP_cons]
            simp [hnt, ih (k+1)]
      · rw [waitGo_out trace interval maxWait k hk]
        simp

theorem waitGo_recheck (trace : Nat → StatusRecord) (interval maxWait : Int) :
    ∀ (fuel k i : Nat), k ≤ i → i < k + (waitGo interval maxWait trace fuel k).2.1 →
      nonTerminal (trace i) → maxWait ≤ ((i : Int) + 1) * interval →
      (waitGo interval maxWait trace fuel k).1 = WaitResult.timeout (timeoutMsg maxWait)
        ∧ k + (waitGo interval maxWait trace fuel k).2.1 = i + 1 := by
  intro fuel
  induction fuel with
  | zero =>
      intro k i hki hlt
      simp [waitGo] at hlt
      omega
  | succ n ih =>
      intro k i hki hlt hnt hbound
      by_cases hk : (k : Int) * interval < maxWait
      · by_cases hc : (trace k).status = some "completed"
        · simp [waitGo, hk, hc] at hlt ⊢
          have : i = k := by omega
          subst this
          exact absurd hc hnt.1
        · by_cases hf : (trace k).status = some "failed"
          · simp [waitGo, hk, hc, hf] at hlt ⊢
            have : i = k := by omega
            subst this
            exact absurd hf hnt.2
          · simp only [waitGo, if_pos hk, if_neg hc, if_neg hf] at hlt ⊢
            rcases Nat.eq_or_lt_of_le hki with h' | h'
            · subst h'
              have hout : ¬ ((k+1 : Nat) : Int) * interval < maxWait := by
                push_cast
                linarith
              rw [waitGo_out trace interval maxWait (k+1) hout]
              exact ⟨rfl, rfl⟩
            · have := ih (k+1) i h' (by omega) hnt hbound
              exact ⟨this.1, by omega⟩
      · rw [waitGo_out trace interval maxWait k hk] at hlt
        simp at hlt
        omega

/-- A trace in which every poll reports a non-terminal processing status. -/
def traceProcessing : Nat → StatusRecord := fun _ => ⟨some "processing", none⟩

/-- A trace in which every poll reports completion. -/
def traceCompleted : Nat → StatusRecord := fun _ => ⟨some "completed", none⟩

/-- Claim C1: for every trace of status records returned by successive
`get_bulk_status` polls and every positive poll interval,
`wait_for_bulk_completion` returns successfully (with the observed record)
iff some poll made strictly within `max_wait` of the loop start observes
status `completed`; it fails with the timeout error iff every poll made
within the bound observes a status that is neither `completed` nor `failed`;
and it fails with the remote-failure error iff some made poll (necessarily
the first terminal one) observes `failed`, regardless of remaining time
budget. -/
theorem C1_wait_for_bulk_completion_spec (trace : Nat → StatusRecord)
    (interval maxWait : Int) (hi : 0 < interval) :
    (∀ r, (wait_for_bulk_completion trace interval maxWait).1 = WaitResult.success r ↔
        ∃ i, pollMade trace interval maxWait i ∧
          (trace i).status = some "completed" ∧ r = trace i)
    ∧ ((wait_for_bulk_completion trace interval maxWait).1
          = WaitResult.timeout (timeoutMsg maxWait) ↔
        ∀ i, pollMade trace interval maxWait i → nonTerminal (trace i))
    ∧ (∀ m, (wait_for_bulk_completion trace interval maxWait).1
          = WaitResult.remoteFailure m ↔
        ∃ i, pollMade trace interval maxWait i ∧
          (trace i).status = some "failed" ∧ m = failureMsg (trace i)) := by
  have h1 : (1 : Int) ≤ interval := by omega
  have hadq : maxWait ≤ (((0:Nat) : Int) + ((maxWait.toNat + 1 : Nat) : Int)) * interval := by
    have h2 : maxWait ≤ ((maxWait.toNat + 1 : Nat) : Int) := by push_cast; omega
    have h3 : ((maxWait.toNat + 1 : Nat) : Int)
        ≤ ((maxWait.toNat + 1 : Nat) : Int) * interval :=
      le_mul_of_one_le_right (by positivity) h1
    push_cast at h2 h3 ⊢
    linarith
  exact waitGo_char trace interval maxWait hi (maxWait.toNat + 1) 0
    (fun j hj => absurd hj (Nat.not_lt_zero j)) hadq

/-- Witness for C1 at a concrete input: interval 10, bound 100, first poll
already completed. -/
theorem C1_wait_for_bulk_completion_spec_witness :
    (wait_for_bulk_completion traceCompleted 10 100).1
      = WaitResult.success ⟨some "completed", none⟩ :=
  ((C1_wait_for_bulk_completion_spec traceCompleted 10 100 (by decide)).1
      ⟨some "completed", none⟩).mpr
    ⟨0, ⟨by decide, fun j hj => absurd hj (Nat.not_lt_zero j)⟩, rfl, rfl⟩

/-- Claim C2: every status call made by `wait_for_bulk_completion` happens at
elapsed time strictly below `max_wait`; each non-terminal poll is followed by
exactly one sleep of `check_interval` (the sleep count equals the number of
non-terminal polls made); once the re-checked elapsed time has met or
exceeded the bound after a non-terminal poll, the loop stops with the timeout
error — whose message embeds the configured bound — without any further
status call; and every timeout error carries exactly that message. -/
theorem C2_wait_for_bulk_completion_temporal (trace : Nat → StatusRecord)
    (interval maxWait : Int) :
    (∀ m, (wait_for_bulk_completion trace interval maxWait).1 = WaitResult.timeout m →
        m = timeoutMsg maxWait)
    ∧ (∀ k, k < (wait_for_bulk_completion trace interval maxWait).2.1 →
        (k : Int) * interval < maxWait)
    ∧ ((wait_for_bulk_completion trace interval maxWait).2.2
        = List.countP (fun i => decide (nonTerminal (trace i)))
            (List.range' 0 (wait_for_bulk_completion trace interval maxWait).2.1))
    ∧ (∀ k, k < (wait_for_bulk_completion trace interval maxWait).2.1 →
        nonTerminal (trace k) → maxWait ≤ ((k : Int) + 1) * interval →
        (wait_for_bulk_completion trace interval maxWait).1
            = WaitResult.timeout (timeoutMsg maxWait)
          ∧ (wait_for_bulk_completion trace interval maxWait).2.1 = k + 1) := by
  unfold wait_for_bulk_completion
  refine ⟨?_, ?_, ?_, ?_⟩
  · exact fun m h => waitGo_timeout_msg trace interval maxWait (maxWait.toNat + 1) 0 m h
  · intro k hk
    exact waitGo_polls_in_bound trace interval maxWait (maxWait.toNat + 1) 0 k
      (Nat.zero_le k) (by omega)
  · exact waitGo_sleeps trace interval maxWait (maxWait.toNat + 1) 0
  · intro k hk hnt hb
    have h := waitGo_recheck trace interval maxWait (maxWait.toNat + 1) 0 k
      (Nat.zero_le k) (by omega) hnt hb
    exact ⟨h.1, by omega⟩

/-- Witness for C2 at a concrete input: interval 10, bound 15, all polls
non-terminal.  Poll 1 is non-terminal and the re-checked elapsed time 20
meets the bound, so the run times out after exactly 2 status calls. -/
theorem C2_wait_for_bulk_completion_temporal_witness :
    (wait_for_bulk_completion traceProcessing 10 15).1
        = WaitResult.timeout (timeoutMsg 15)
      ∧ (wait_for_bulk_completion traceProcessing 10 15).2.1 = 2 :=
  (C2_wait_for_bulk_completion_temporal traceProcessing 10 15).2.2.2 1
    (by decide) (by decide) (by decide)

/-- Claim C10: with a non-positive `max_wait` the loop fails with the timeout
error immediately: the bound is checked before the first poll, so zero status
calls are made and no sleep is performed. -/
theorem C10_wait_for_bulk_completion_nonpositive_budget (trace : Nat → StatusRecord)
    (interval maxWait : Int) (h : maxWait ≤ 0) :
    wait_for_bulk_completion trace interval maxWait
      = (WaitResult.timeout (timeoutMsg maxWait), 0, 0) := by
  have ht : maxWait.toNat = 0 := by omega
  have hk : ¬ ((0:Nat) : Int) * interval < maxWait := by
    simp only [Nat.cast_zero, zero_mul]
    omega
  unfold wait_for_bulk_completion
  rw [ht]
  exact waitGo_out trace interval maxWait 0 hk (0 + 1)

/-- Witness for C10 at a concrete input: bound 0 times out with zero status
calls and zero sleeps. -/
theorem C10_wait_for_bulk_completion_nonpositive_budget_witness :
    wait_for_bulk_completion traceProcessing 10 0
      = (WaitResult.timeout (timeoutMsg 0), 0, 0) :=
  C10_wait_for_bulk_completion_nonpositive_budget traceProcessing 10 0 (by decide)

/-! ## Transport layer

Embedding of `EmailListVerifyClient._make_request` (httpx client,
`src/src/emaillistverify/client.py` lines 56-103; legacy client,
`src/emaillistverify.py` lines 43-88).  Query parameters are Python dicts,
modelled as association lists with `dict[k] = v` semantics (`dictSet`).
A parsed response body is either a JSON-decoded value (string, object, or
some other JSON value) or the raw text fallback. -/

/-- A parsed response body: a bare string, a JSON object, or any other JSON
value (array, number, boolean, null). -/
inductive Parsed where
  | str (s : String)
  | dict (d : List (String × String))
  | other
deriving DecidableEq

/-- Python dict lookup on the association-list model (first match). -/
def lookupDict (d : List (String × String)) (k : String) : Option String :=
  match d with
  | [] => none
  | p :: ps => if p.1 = k then some p.2 else lookupDict ps k

/-- Python `d[k] = v` on the association-list model: replace the value in
place when the key is present, append otherwise. -/
def dictSet (d : List (String × String)) (k v : String) : List (String × String) :=
  if d.any (fun p => p.1 = k) then d.map (fun p => if p.1 = k then (k, v) else p)
  else d ++ [(k, v)]

/-- The query parameters `_make_request` sends: the caller's params (`{}` when
`None`) with `params['secret'] = self.api_key` applied. -/
def make_request_params (apiKey : String) (params : Option (List (String × String))) :
    List (String × String) :=
  dictSet (params.getD []) "secret" apiKey

theorem dictSet_mem_self (d : List (String × String)) (k v : String) :
    (k, v) ∈ dictSet d k v := by
  unfold dictSet
  by_cases h : d.any (fun p => p.1 = k)
  · rw [if_pos h]
    rcases List.any_eq_true.mp h with ⟨p, hp, hpk⟩
    simp only [decide_eq_true_eq] at hpk
    exact List.mem_map.mpr ⟨p, hp, by rw [if_pos hpk]⟩
  · rw [if_neg h]
    exact List.mem_append_right d (List.mem_singleton.mpr rfl)

theorem dictSet_key_val (d : List (String × String)) (k v : String)
    (p : String × String) (hp : p ∈ dictSet d k v) (hk : p.1 = k) : p.2 = v := by
  unfold dictSet at hp
  by_cases h : d.any (fun q => q.1 = k)
  · rw [if_pos h] at hp
    rcases List.mem_map.mp hp with ⟨q, -, hq⟩
    by_cases hqk : q.1 = k
    · rw [if_pos hqk] at hq
      rw [← hq]
    · rw [if_neg hqk] at hq
      rw [← hq] at hk
      exact absurd hk hqk
  · rw [if_neg h] at hp
    rcases List.mem_append.mp hp with hp' | hp'
    · exfalso
      exact h (List.any_eq_true.mpr ⟨p, hp', by simp [hk]⟩)
    · rw [List.mem_singleton.mp hp']

/-- Claim C3: every request the transport layer issues carries a `secret`
query parameter whose value is the configured API key, regardless of the
caller-supplied parameters (a caller-supplied `secret` is overwritten). -/
theorem C3_make_request_secret_param (apiKey : String)
    (params : Option (List (String × String))) :
    ("secret", apiKey) ∈ make_request_params apiKey params
    ∧ ∀ p ∈ make_request_params apiKey params, p.1 = "secret" → p.2 = apiKey := by
  constructor
  · exact dictSet_mem_self (params.getD []) "secret" apiKey
  · intro p hp hk
    exact dictSet_key_val (params.getD []) "secret" apiKey p hp hk

/-- Witness for C3 at a concrete input: caller params carrying both an
`email` parameter and a stale `secret` value. -/
theorem C3_make_request_secret_param_witness :
    ("secret", "KEY") ∈ make_request_params "KEY"
        (some [("email", "a@x.com"), ("secret", "stale")])
    ∧ ("secret", "stale") ∉ make_request_params "KEY"
        (some [("email", "a@x.com"), ("secret", "stale")]) :=
  ⟨(C3_make_request_secret_param "KEY" (some [("email", "a@x.com"), ("secret", "stale")])).1,
   fun hmem =>
     absurd ((C3_make_request_secret_param "KEY"
         (some [("email", "a@x.com"), ("secret", "stale")])).2
       ("secret", "stale") hmem rfl) (by decide)⟩

/-- Text of the underlying HTTP-status exception (abstraction of the message
of `httpx.HTTPStatusError` / `requests.exceptions.HTTPError` for status
`code`; only its dependence on the code matters to the claims). -/
def statusDetail (code : Nat) : String :=
  toString code ++ (if code < 500 then " Client Error" else " Server Error")

/-- Response handling of the httpx client's `_make_request`
(`src/src/emaillistverify/client.py` lines 91-103): a 401 raises
`"Unauthorized: invalid API key"` before `raise_for_status`; any other
non-2xx status raises through the `except httpx.HTTPError` clause as
`f"Request failed: {str(e)}"`; a 2xx returns the parsed body. -/
def make_request_result (code : Nat) (body : Parsed) : Except String Parsed :=
  if code = 401 then Except.error "Unauthorized: invalid API key"
  else if 200 ≤ code ∧ code ≤ 299 then Except.ok body
  else Except.error ("Request failed: " ++ statusDetail code)

/-- Response handling of the legacy client's `_make_request`
(`src/emaillistverify.py` lines 70-88): no 401 special case;
`response.raise_for_status()` raises for every 4xx/5xx, caught and re-raised
as `f"Request failed: {str(e)}"`. -/
def legacy_make_request_result (code : Nat) (body : Parsed) : Except String Parsed :=
  if 400 ≤ code ∧ code ≤ 599 then Except.error ("Request failed: " ++ statusDetail code)
  else Except.ok body

theorem unauthorized_ne_request_failed (s : String) :
    "Unauthorized: invalid API key" ≠ "Request failed: " ++ s := by
  intro h
  have hd : ("Unauthorized: invalid API key").data
      = ("Request failed: ").data ++ s.data := by
    rw [← String.data_append]
    exact congrArg String.data h
  have h2 := congrArg (List.take 16) hd
  rw [List.take_left' (by decide)] at h2
  exact absurd h2 (by decide)

/-- Counterexample to claim C4: the legacy client's transport maps an HTTP
401 to the generic request-failed error, not to an error distinguishable
from it, so not every method going through a transport layer surfaces a
distinguishable Unauthorized error on 401. -/
theorem C4_counterexample_legacy_401_generic :
    legacy_make_request_result 401 (Parsed.str "x")
        = Except.error ("Request failed: " ++ statusDetail 401)
    ∧ "Request failed: " ++ statusDetail 401 ≠ "Unauthorized: invalid API key" := by
  exact ⟨rfl, by decide⟩

/-- Claim C4 as amended: in the httpx client, an HTTP 401 fails with the
`Unauthorized` error, whose message differs from every generic
request-failed message, while any other non-2xx status yields the generic
request-failed error; the legacy requests-based client instead maps 401 to
the generic request-failed error like any other 4xx/5xx. -/
theorem C4_unauthorized_distinguishable (body : Parsed) :
    make_request_result 401 body = Except.error "Unauthorized: invalid API key"
    ∧ (∀ s, "Unauthorized: invalid API key" ≠ "Request failed: " ++ s)
    ∧ (∀ code, code ≠ 401 → ¬ (200 ≤ code ∧ code ≤ 299) →
        make_request_result code body
          = Except.error ("Request failed: " ++ statusDetail code))
    ∧ legacy_make_request_result 401 body
        = Except.error ("Request failed: " ++ statusDetail 401) := by
  refine ⟨rfl, unauthorized_ne_request_failed, ?_, by simp [legacy_make_request_result]⟩
  intro code h401 h2xx
  simp [make_request_result, h401, h2xx]

/-- Witness for C4 (amended) at concrete inputs: status 500 on the httpx
client yields the generic request-failed error, and the two error messages
at hand differ. -/
theorem C4_unauthorized_distinguishable_witness :
    make_request_result 500 (Parsed.str "x")
        = Except.error ("Request failed: " ++ statusDetail 500)
    ∧ "Unauthorized: invalid API key" ≠ "Request failed: " ++ "boom" :=
  ⟨(C4_unauthorized_distinguishable (Parsed.str "x")).2.2.1 500 (by decide) (by decide),
   (C4_unauthorized_distinguishable (Parsed.str "x")).2.1 "boom"⟩

/-! ## Bulk upload

Embedding of `bulk_upload` (httpx client, `src/src/emaillistverify/client.py`
lines 193-227; legacy client, `src/emaillistverify.py` lines 145-176).  The
local filesystem is abstracted by the boolean `os.path.exists(file_path)`
outcome; filename synthesis is orthogonal to every claim and omitted; the
second component counts transport requests issued. -/

/-- Python `str.strip()` on the character-list level (trim leading and
trailing whitespace). -/
def stripChars (l : List Char) : List Char :=
  ((l.dropWhile Char.isWhitespace).reverse.dropWhile Char.isWhitespace).reverse

/-- Python `str.strip()`. -/
def strip (s : String) : String := String.mk (stripChars s.data)

/-- The httpx client's `bulk_upload`: bare-string responses are returned
verbatim (`return result`). -/
def bulk_upload (pathExists : Bool) (path : String) (resp : Except String Parsed) :
    Except String String × Nat :=
  if pathExists then
    match resp with
    | Except.error m => (Except.error m, 1)
    | Except.ok (Parsed.str s) => (Except.ok s, 1)
    | Except.ok (Parsed.dict d) =>
        match lookupDict d "file_id" with
        | some v => (Except.ok v, 1)
        | none => (Except.error "Failed to get file ID from response", 1)
    | Except.ok Parsed.other => (Except.error "Failed to get file ID from response", 1)
  else (Except.error ("File not found: " ++ path), 0)

/-- The legacy client's `bulk_upload`: bare-string responses are stripped
(`return result.strip()`). -/
def legacy_bulk_upload (pathExists : Bool) (path : String) (resp : Except String Parsed) :
    Except String String × Nat :=
  if pathExists then
    match resp with
    | Except.error m => (Except.error m, 1)
    | Except.ok (Parsed.str s) => (Except.ok (strip s), 1)
    | Except.ok (Parsed.dict d) =>
        match lookupDict d "file_id" with
        | some v => (Except.ok v, 1)
        | none => (Except.error "Failed to get file ID from response", 1)
    | Except.ok Parsed.other => (Except.error "Failed to get file ID from response", 1)
  else (Except.error ("File not found: " ++ path), 0)

/-- Claim C5: for every path that does not exist locally, upload (in either
client) fails immediately with the file-not-found error and issues zero
network calls. -/
theorem C5_bulk_upload_missing_file (path : String) (resp : Except String Parsed) :
    bulk_upload false path resp = (Except.error ("File not found: " ++ path), 0)
    ∧ legacy_bulk_upload false path resp
        = (Except.error ("File not found: " ++ path), 0) :=
  ⟨rfl, rfl⟩

/-- Counterexample to claim C6: in the httpx client a bare-string parsed
response (here a JSON-encoded string with surrounding spaces) is returned as
the file id unchanged, not trimmed. -/
theorem C6_counterexample_httpx_untrimmed :
    (bulk_upload true "emails.csv" (Except.ok (Parsed.str " 12345 "))).1
        = Except.ok " 12345 "
    ∧ strip " 12345 " = "12345"
    ∧ (" 12345 " : String) ≠ "12345" :=
  ⟨rfl, by decide, by decide⟩

/-- Claim C6 as amended: on a bare-string parsed response the legacy upload
returns the string trimmed while the httpx upload returns it unchanged (its
transport already trims raw-text fallback bodies, but a JSON-encoded string
reaches upload untrimmed); on an object response both return the `file_id`
field when present; in every other case both fail with the upload error. -/
theorem C6_bulk_upload_response_shapes (path s : String) (d : List (String × String)) :
    (bulk_upload true path (Except.ok (Parsed.str s))).1 = Except.ok s
    ∧ (legacy_bulk_upload true path (Except.ok (Parsed.str s))).1 = Except.ok (strip s)
    ∧ (bulk_upload true path (Except.ok (Parsed.dict d))).1
        = (match lookupDict d "file_id" with
           | some v => Except.ok v
           | none => Except.error "Failed to get file ID from response")
    ∧ (legacy_bulk_upload true path (Except.ok (Parsed.dict d))).1
        = (match lookupDict d "file_id" with
           | some v => Except.ok v
           | none => Except.error "Failed to get file ID from response")
    ∧ (bulk_upload true path (Except.ok Parsed.other)).1
        = Except.error "Failed to get file ID from response"
    ∧ (legacy_bulk_upload true path (Except.ok Parsed.other)).1
        = Except.error "Failed to get file ID from response" := by
  refine ⟨rfl, rfl, ?_, ?_, rfl, rfl⟩
  · cases h : lookupDict d "file_id" <;> simp [bulk_upload, h]
  · cases h : lookupDict d "file_id" <;> simp [legacy_bulk_upload, h]

/-! ## Download of bulk results

Embedding of `download_bulk_result` (httpx client,
`src/src/emaillistverify/client.py` lines 244-262; legacy client,
`src/emaillistverify.py` lines 193-211; the two are textually identical).
The second component is the list of endpoints actually requested. -/

/-- `download_bulk_result(file_id, result_type)`: empty-file-id check, then
the `result_type not in ['all', 'clean']` check, then one request to the
endpoint selected by `result_type`.  `resp` is the transport's outcome for
that single request. -/
def download_bulk_result (resp : Except String String) (file_id result_type : String) :
    Except String String × List String :=
  if file_id = "" then (Except.error "File ID is required", [])
  else if result_type ≠ "all" ∧ result_type ≠ "clean" then
    (Except.error "result_type must be \x27all\x27 or \x27clean\x27", [])
  else if result_type = "all" then (resp, ["downloadApiFile"])
  else (resp, ["downloadCleanFile"])

/-- The two `InvalidInput`-kind errors `download_bulk_result` raises before
any network call. -/
def isInvalidInputMsg (m : String) : Prop :=
  m = "File ID is required" ∨ m = "result_type must be \x27all\x27 or \x27clean\x27"

/-- Counterexample to claim C7: with an empty file id and result type
`all`, `download_bulk_result` issues zero requests, not exactly one request
to the `downloadApiFile` endpoint. -/
theorem C7_counterexample_empty_file_id :
    download_bulk_result (Except.ok "csv") "" "all"
        = (Except.error "File ID is required", [])
    ∧ ([] : List String) ≠ ["downloadApiFile"] :=
  ⟨rfl, by decide⟩

/-- Claim C7 as amended: for every file id, a result type outside
`{all, clean}` fails with one of the two invalid-input errors and issues
zero network calls; an empty file id fails with the file-id-required error
and issues zero calls; and for every nonempty file id exactly one request is
issued — to `downloadApiFile` for `all` and to `downloadCleanFile` for
`clean`. -/
theorem C7_download_bulk_result_routing (resp : Except String String)
    (file_id result_type : String) :
    (result_type ≠ "all" → result_type ≠ "clean" →
      (∃ m, isInvalidInputMsg m ∧
        (download_bulk_result resp file_id result_type).1 = Except.error m)
      ∧ (download_bulk_result resp file_id result_type).2 = [])
    ∧ (file_id = "" →
        download_bulk_result resp file_id result_type
          = (Except.error "File ID is required", []))
    ∧ (file_id ≠ "" →
        download_bulk_result resp file_id "all" = (resp, ["downloadApiFile"])
        ∧ download_bulk_result resp file_id "clean" = (resp, ["downloadCleanFile"])) := by
  refine ⟨?_, ?_, ?_⟩
  · intro ha hc
    by_cases hf : file_id = ""
    · exact ⟨⟨"File ID is required", Or.inl rfl, by simp [download_bulk_result, hf]⟩,
        by simp [download_bulk_result, hf]⟩
    · refine ⟨⟨"result_type must be \x27all\x27 or \x27clean\x27", Or.inr rfl, ?_⟩, ?_⟩
      · simp [download_bulk_result, hf, ha, hc]
      · simp [download_bulk_result, hf, ha, hc]
  · intro hf
    simp [download_bulk_result, hf]
  · intro hf
    constructor
    · simp [download_bulk_result, hf]
    · simp [download_bulk_result, hf]

/-- Witness for C7 (amended) at concrete inputs: a nonempty file id routes
`all` and `clean` to their distinct endpoints with exactly one request, and
a bogus result type issues zero requests. -/
theorem C7_download_bulk_result_routing_witness :
    download_bulk_result (Except.ok "csv") "abc123" "all"
        = (Except.ok "csv", ["downloadApiFile"])
    ∧ download_bulk_result (Except.ok "csv") "abc123" "clean"
        = (Except.ok "csv", ["downloadCleanFile"])
    ∧ (download_bulk_result (Except.ok "csv") "abc123" "bogus").2 = [] :=
  ⟨((C7_download_bulk_result_routing (Except.ok "csv") "abc123" "all").2.2
      (by decide)).1,
   ((C7_download_bulk_result_routing (Except.ok "csv") "abc123" "all").2.2
      (by decide)).2,
   ((C7_download_bulk_result_routing (Except.ok "csv") "abc123" "bogus").1
      (by decide) (by decide)).2⟩

/-! ## Batch verification

Embedding of `verify_emails` (httpx client, `src/src/emaillistverify/client.py`
lines 151-178; `src/emaillistverify/__init__.py` lines 82-110 is structurally
identical): a loop over the input list building a Python dict keyed by the
email address, catching per-item `EmailListVerifyError`s. -/

theorem lookupDict_cons (p : String × String) (ps : List (String × String)) (k : String) :
    lookupDict (p :: ps) k = if p.1 = k then some p.2 else lookupDict ps k := rfl

theorem lookupDict_append (d l : List (String × String)) (e : String) :
    lookupDict (d ++ l) e
      = match lookupDict d e with
        | some w => some w
        | none => lookupDict l e := by
  induction d with
  | nil => rfl
  | cons p ps ih =>
      by_cases hp : p.1 = e
      · simp [lookupDict_cons, hp]
      · simp [lookupDict_cons, hp, ih]

theorem lookupDict_eq_none_of_not_any (d : List (String × String)) (x : String)
    (h : d.any (fun p => p.1 = x) = false) : lookupDict d x = none := by
  induction d with
  | nil => rfl
  | cons p ps ih =>
      simp only [List.any_cons, Bool.or_eq_false_iff] at h
      rw [lookupDict_cons, if_neg (by simpa using h.1)]
      exact ih h.2

theorem lookupDict_map_self (d : List (String × String)) (x v : String)
    (h : d.any (fun p => p.1 = x) = true) :
    lookupDict (d.map (fun p => if p.1 = x then (x, v) else p)) x = some v := by
  induction d with
  | nil => simp at h
  | cons p ps ih =>
      by_cases hp : p.1 = x
      · simp [lookupDict_cons, hp]
      · simp only [List.any_cons] at h
        have hps : ps.any (fun p => p.1 = x) = true := by
          rcases Bool.or_eq_true_iff.mp h with h' | h'
          · exact absurd (of_decide_eq_true h') hp
          · exact h'
        simp [lookupDict_cons, hp, ih hps]

theorem lookupDict_nil (k : String) : lookupDict [] k = none := rfl

theorem lookupDict_map_other (d : List (String × String)) (x v e : String) (hxe : x ≠ e) :
    lookupDict (d.map (fun p => if p.1 = x then (x, v) else p)) e = lookupDict d e := by
  have hex : ¬ (e = x) := fun hh => hxe hh.symm
  induction d with
  | nil => rfl
  | cons p ps ih =>
      by_cases hp : p.1 = x
      · simp [lookupDict_cons, hp, hxe, ih]
      · by_cases hpe : p.1 = e
        · simp [lookupDict_cons, hp, hpe, hex]
        · simp [lookupDict_cons, hp, hpe, ih]

theorem lookupDict_dictSet (d : List (String × String)) (x v e : String) :
    lookupDict (dictSet d x v) e = if x = e then some v else lookupDict d e := by
  unfold dictSet
  by_cases h : d.any (fun p => p.1 = x) = true
  · rw [if_pos h]
    by_cases hxe : x = e
    · subst hxe
      rw [if_pos rfl]
      exact lookupDict_map_self d x v h
    · rw [if_neg hxe]
      exact lookupDict_map_other d x v e hxe
  · have hfalse : d.any (fun p => p.1 = x) = false := by
      cases hb : d.any (fun p => p.1 = x)
      · rfl
      · exact absurd hb h
    rw [if_neg h, lookupDict_append]
    by_cases hxe : x = e
    · subst hxe
      rw [lookupDict_eq_none_of_not_any d x hfalse]
      simp [lookupDict_cons]
    · rw [if_neg hxe]
      cases hl : lookupDict d e
      · simp [lookupDict_cons, lookupDict_nil, hxe]
      · rfl

/-- `verify_email(email)` given the transport outcome `net` of its request:
an empty address raises before any call; otherwise the request's status
string is returned or the raised error propagates. -/
def verify_email_model (net : Except String String) (email : String) :
    Except String String :=
  if email = "" then Except.error "Email address is required" else net

/-- The dict entry `verify_emails` stores for one processed element: the
status on success, `f"error: {str(e)}"` on a caught failure. -/
def entryStr (o : Except String String) : String :=
  match o with
  | Except.ok s => s
  | Except.error m => "error: " ++ m

/-- The loop of `verify_emails`: `net i` is the transport outcome of the
`i`-th `verify_email` invocation, `acc` the results dict, `log` the
addresses passed to `verify_email` so far. -/
def verify_emails_go (net : Nat → Except String String) :
    List String → Nat → List (String × String) → List String →
      List (String × String) × List String
  | [], _, acc, log => (acc, log)
  | e :: es, i, acc, log =>
      verify_emails_go net es (i+1)
        (dictSet acc e (entryStr (verify_email_model (net i) e))) (log ++ [e])

/-- `verify_emails(emails)`: the results dict and the sequence of addresses
on which `verify_email` was invoked, in order. -/
def verify_emails (net : Nat → Except String String) (emails : List String) :
    List (String × String) × List String :=
  verify_emails_go net emails 0 [] []

/-- The dict entry contributed by the last occurrence of `e` in `es` when
the loop processes `es` starting at call index `i`; `none` when `e` does not
occur in `es`. -/
def lastEntry (net : Nat → Except String String) :
    List String → Nat → String → Option String
  | [], _, _ => none
  | x :: xs, i, e =>
      match lastEntry net xs (i+1) e with
      | some v => some v
      | none =>
          if x = e then some (entryStr (verify_email_model (net i) x)) else none

theorem verify_emails_go_lookup (net : Nat → Except String String) :
    ∀ (es : List String) (i : Nat) (acc : List (String × String)) (log : List String)
      (e : String),
      lookupDict (verify_emails_go net es i acc log).1 e
        = match lastEntry net es i e with
          | some v => some v
          | none => lookupDict acc e := by
  intro es
  induction es with
  | nil => intro i acc log e; rfl
  | cons x xs ih =>
      intro i acc log e
      simp only [verify_emails_go]
      rw [ih (i+1) (dictSet acc x (entryStr (verify_email_model (net i) x))) (log ++ [x]) e]
      simp only [lastEntry]
      cases hl : lastEntry net xs (i+1) e
      · rw [lookupDict_dictSet]
        by_cases hxe : x = e
        · simp [hxe]
        · simp [hxe]
      · rfl

theorem verify_emails_go_log (net : Nat → Except String String) :
    ∀ (es : List String) (i : Nat) (acc : List (String × String)) (log : List String),
      (verify_emails_go net es i acc log).2 = log ++ es := by
  intro es
  induction es with
  | nil => intro i acc log; simp [verify_emails_go]
  | cons x xs ih =>
      intro i acc log
      simp only [verify_emails_go]
      rw [ih]
      simp

/-- A transport-outcome sequence whose first call fails and later calls
return the status `ok`. -/
def netFirstFails : Nat → Except String String := fun i =>
  if i = 0 then Except.error "boom" else Except.ok "ok"

/-- Counterexample to claim C8: on the duplicated input
`["a@x.com", "a@x.com"]` the first per-item verification fails, yet the
mapping entry for that email is the second occurrence's normal status `ok`
rather than an `error: ...` string — the dict is keyed by address and a
later duplicate overwrites the earlier error entry. -/
theorem C8_counterexample_duplicate_overwrites :
    verify_email_model (netFirstFails 0) "a@x.com" = Except.error "boom"
    ∧ lookupDict (verify_emails netFirstFails ["a@x.com", "a@x.com"]).1 "a@x.com"
        = some "ok"
    ∧ ("ok" : String) ≠ "error: boom" :=
  ⟨rfl, by decide, by decide⟩

/-- Claim C8 as amended: `verify_emails` invokes `verify_email` once per
element in input order (its call log is exactly the input list), no
per-item failure escapes, and the mapping entry for each address is
determined by its last occurrence — that occurrence's status, or
`error: <message>` if its verification failed; addresses that do not occur
have no entry. -/
theorem C8_verify_emails_last_occurrence (net : Nat → Except String String)
    (emails : List String) :
    (verify_emails net emails).2 = emails
    ∧ ∀ e, lookupDict (verify_emails net emails).1 e = lastEntry net emails 0 e := by
  constructor
  · rw [verify_emails, verify_emails_go_log]
    simp
  · intro e
    rw [verify_emails, verify_emails_go_lookup]
    cases hl : lastEntry net emails 0 e <;> rfl

/-! ## Local heuristics: extract_domain

Embedding of `EmailValidator.extract_domain` (`src/emaillistverify.py`
lines 294-307):

    if '@' in email:
        return email.split('@')[1].lower()
    return None
-/

/-- One step of Python `str.split(sep)` on the character-list level: the
first field and the list of remaining fields. -/
def splitCharAux (sep : Char) : List Char → List Char × List (List Char)
  | [] => ([], [])
  | c :: cs =>
      let r := splitCharAux sep cs
      if c = sep then ([], r.1 :: r.2) else (c :: r.1, r.2)

/-- Python `str.split(sep)` on the character-list level: `n` separator
occurrences yield `n + 1` fields, empty fields preserved. -/
def splitChar (sep : Char) (l : List Char) : List (List Char) :=
  (splitCharAux sep l).1 :: (splitCharAux sep l).2

/-- Python `str.lower()` on the character-list level (ASCII case folding;
the inputs of interest are ASCII). -/
def lowerChars (l : List Char) : List Char := l.map Char.toLower

/-- `extract_domain`: Python `'@' in email` guard, then
`email.split('@')[1].lower()` — index 1 always exists when an `@` is
present. -/
def extract_domain (email : String) : Option String :=
  if '@' ∈ email.data then
    some (String.mk (lowerChars ((splitChar '@' email.data).getD 1 [])))
  else none

/-- The claim's wording of `extractDomain`, for comparison with the code:
the text after the FIRST `@`, lower-cased; null if no `@` is present. -/
def spec_extract_domain (email : String) : Option String :=
  if '@' ∈ email.data then
    some (String.mk (lowerChars ((email.data.dropWhile (fun c => c ≠ '@')).tail)))
  else none

theorem splitCharAux_fst (sep : Char) (l : List Char) :
    (splitCharAux sep l).1 = l.takeWhile (fun c => c ≠ sep) := by
  induction l with
  | nil => rfl
  | cons c cs ih =>
      by_cases hc : c = sep
      · simp [splitCharAux, List.takeWhile_cons, hc]
      · simp [splitCharAux, List.takeWhile_cons, hc, ih]

theorem splitChar_field_one (l : List Char) (h : '@' ∈ l) :
    (splitChar '@' l).getD 1 []
      = ((l.dropWhile (fun c => c ≠ '@')).tail).takeWhile (fun c => c ≠ '@') := by
  induction l with
  | nil => simp at h
  | cons c cs ih =>
      by_cases hc : c = '@'
      · subst hc
        simp [splitChar, splitCharAux, splitCharAux_fst, List.dropWhile_cons]
      · have hcs : '@' ∈ cs := by
          rcases List.mem_cons.mp h with h' | h'
          · exact absurd h'.symm hc
          · exact h'
        have hstep : (splitChar '@' (c :: cs)).getD 1 [] = (splitChar '@' cs).getD 1 [] := by
          simp [splitChar, splitCharAux, hc]
        rw [hstep, ih hcs]
        simp [List.dropWhile_cons, hc]

/-- Counterexample to claim C9: on a string with two `@`s, `extract_domain`
returns only the segment up to the second `@`, not the whole text after the
first `@`: `extract_domain "x@Y@Z" = some "y"` while the text after the
first `@`, lower-cased, is `"y@z"`. -/
theorem C9_counterexample_two_ats :
    extract_domain "x@Y@Z" = some "y"
    ∧ spec_extract_domain "x@Y@Z" = some "y@z"
    ∧ extract_domain "x@Y@Z" ≠ spec_extract_domain "x@Y@Z" :=
  ⟨by decide, by decide, by decide⟩

/-- Claim C9 as amended: for every string containing at least one `@`,
`extract_domain` returns the second field of splitting on `@` — the segment
strictly between the first `@` and the next `@` (or the end of the string)
— lower-cased; this equals the text after the first `@` exactly when the
string contains a single `@`.  For every string without `@` it returns
none.  The claim's concrete examples hold. -/
theorem C9_extract_domain_second_field (email : String) :
    ('@' ∉ email.data → extract_domain email = none)
    ∧ ('@' ∈ email.data → extract_domain email
        = some (String.mk (lowerChars
            (((email.data.dropWhile (fun c => c ≠ '@')).tail).takeWhile
              (fun c => c ≠ '@'))))) := by
  constructor
  · intro h
    simp [extract_domain, h]
  · intro h
    rw [extract_domain, if_pos h, splitChar_field_one email.data h]

/-- Witness for C9 (amended) at the claim's example inputs. -/
theorem C9_extract_domain_second_field_witness :
    extract_domain "a@B.COM" = some "b.com" ∧ extract_domain "noAt" = none :=
  ⟨((C9_extract_domain_second_field "a@B.COM").2 (by decide)).trans (by decide),
   (C9_extract_domain_second_field "noAt").1 (by decide)⟩
